import Mathlib

/-!
Verification of the `wrapper` package (signal-handling supervisor and HTTP
server lifecycle helpers) against its natural-language specification.

The Go source is shallowly embedded: pure control flow becomes Lean
functions, channels and goroutine interleavings become explicit event lists
or a small-step successor function, and Go `error` values become an
inductive type.  Definitions follow `wrapper.go` and `http_server.go`;
where the behaviour of a Go standard-library collaborator matters
(`errors.Is`, `errors.Join`, `os/signal.Notify`, `net/http.Server.Shutdown`)
it is modelled from that function's documented contract, noted in the
doc comment.
-/

namespace Wrapper

/-- Model of Go `error` values as used by this package: the `syscall.EINTR`
sentinel, `http.ErrServerClosed`, ad-hoc `fmt.Errorf` strings, a `%w`-wrapped
error, and a binary join node (`errors.Join` of several errors is a left fold
of this node).  A Go `error` variable that may be `nil` is `Option GoError`. -/
inductive GoError where
  | eintr : GoError
  | errServerClosed : GoError
  | str : String → GoError
  | wrap : String → GoError → GoError
  | join : GoError → GoError → GoError
deriving DecidableEq, Repr

/-- A possibly-nil Go error value. -/
abbrev ErrorV := Option GoError

/-- The sentinel `var Interrupt = syscall.EINTR` from wrapper.go. -/
def Interrupt : GoError := GoError.eintr

/-- Modelled from the documented contract of `errors.Is`: the target is
compared against every error in the chain obtained by repeatedly unwrapping
(single `%w` wrapping and the multi-error children of a join). -/
def errorsIs : GoError → GoError → Bool
  | GoError.wrap m i, t => (GoError.wrap m i == t) || errorsIs i t
  | GoError.join a b, t => (GoError.join a b == t) || errorsIs a t || errorsIs b t
  | e, t => e == t

/-- The call `errors.Is(err, target)` for a possibly-nil `err`; `errors.Is` on a nil
error is false for any non-nil target. -/
def errorsIsV : ErrorV → GoError → Bool
  | none, _ => false
  | some e, t => errorsIs e t

/-- Modelled from the documented contract of `errors.Join` applied to a list
of non-nil errors: the empty list yields nil, otherwise one error wrapping
all of them (here a left-fold of the binary join node). -/
def errorsJoin : List GoError → ErrorV
  | [] => none
  | e :: rest => some (rest.foldl GoError.join e)

/-! ## Signals and the handler map (wrapper.go) -/

/-- OS signals, identified by their conventional number. -/
abbrev Signal := Nat

def SIGHUP : Signal := 1
def SIGINT : Signal := 2
def SIGQUIT : Signal := 3
def SIGTERM : Signal := 15
def SIGUSR1 : Signal := 10

/-- A `SignalHandlers` value is a Go map from signal to handler function.  Handler
bodies are opaque to the dispatch loop (they only ever write to the sink
channel, which the event list below models), so a handler is represented by
an identifier.  Go map keys are distinct. -/
abbrev SignalHandlers := List (Signal × Nat)

/-- The helper `signals(handlers)`: collects the keys of the handler map
(wrapper.go, `signals`). -/
def signals (handlers : SignalHandlers) : List Signal :=
  handlers.map Prod.fst

/-- Modelled from the documented contract of `os/signal.Notify`: the call
`signal.Notify(c, sigs...)` relays exactly the listed signals to `c`, except
that with an empty list **all** incoming signals are relayed.
`RegisterSignalHandlers` calls `signal.Notify(ww.signal, signals(handlers)...)`,
so this predicate applied to `signals handlers` says whether a given signal
is relayed to the`w`'s signal channel after registration. -/
def notifyRelays (subscribed : List Signal) (s : Signal) : Bool :=
  subscribed.isEmpty || subscribed.contains s

/-- Go map lookup `ww.h[sig]` (comma-ok form). -/
def lookupHandler (h : SignalHandlers) (s : Signal) : Option Nat :=
  (h.find? (fun p => p.1 == s)).map Prod.snd

/-! ## The dispatch loop `(*w).wait` (wrapper.go lines 50-73)

The loop body is a `select` over three sources: context cancellation, the
per-handler sink channel `errCh`, and the signal channel.  An execution of
the loop is determined by the sequence of values the `select` receives, so
the loop is embedded as a function over that event list. -/

/-- One value received by the `select` of the dispatch loop. -/
inductive Ev where
  | ctxDone : Ev
  | fromErrCh : ErrorV → Ev
  | fromSignal : Signal → Ev
deriving DecidableEq, Repr

/-- How the dispatch loop left (or did not leave) its `for` loop. -/
inductive WaitOut where
  /-- returned via the `ctx.Done()` branch, sending nothing (the send there
  is commented out in the source). -/
  | returnedNoSend : WaitOut
  /-- forwarded a value to `ww.err` and returned. -/
  | sent : ErrorV → WaitOut
  /-- the event list is exhausted and the loop is still running. -/
  | looping : WaitOut
deriving DecidableEq, Repr

/-- Observable trace of one run of the dispatch loop: its outcome, the
signals whose handlers it dispatched (in order), and whether the deferred
`close(errCh)` has run (it runs exactly when `wait` returns). -/
structure WaitTrace where
  out : WaitOut
  invoked : List Signal
  errChClosed : Bool
deriving DecidableEq, Repr

/-- The dispatch loop of `(*w).wait`, translated branch by branch:
`ctx.Done()` returns without sending; a nil value received from `errCh` is
ignored and the loop continues; a non-nil error is forwarded to `ww.err`
after the `errors.Is(err, Interrupt)` check rewrites it to nil, and the loop
returns; a signal is looked up in the handler map and, when present, its
handler is started as a new goroutine (recorded in `invoked`), after which
the loop continues. -/
def waitRun (h : SignalHandlers) : List Ev → WaitTrace
  | [] => ⟨WaitOut.looping, [], false⟩
  | Ev.ctxDone :: _ => ⟨WaitOut.returnedNoSend, [], true⟩
  | Ev.fromErrCh e :: rest =>
    match e with
    | none => waitRun h rest
    | some err =>
      ⟨WaitOut.sent (if errorsIs err Interrupt then none else some err), [], true⟩
  | Ev.fromSignal s :: rest =>
    let t := waitRun h rest
    match lookupHandler h s with
    | some _ => ⟨t.out, s :: t.invoked, t.errChClosed⟩
    | none => t

/-- Outcome of a Go channel send. -/
inductive SendOutcome where
  | delivered : ErrorV → SendOutcome
  /-- a send on a closed channel panics (Go language semantics). -/
  | panicked : SendOutcome
deriving DecidableEq, Repr

/-- A handler goroutine's send on `errCh`, given whether the dispatch loop's
deferred `close(errCh)` has already run. -/
def sendOnErrCh (closed : Bool) (v : ErrorV) : SendOutcome :=
  if closed then SendOutcome.panicked else SendOutcome.delivered v

/-! ## The completion-channel race in `Exec` (wrapper.go lines 75-109)

`RegisterSignalHandlers` builds `ww.err` as `make(chan error, 1)`.  During
`Exec` at most two goroutines ever send on it — the workload goroutine
`ww.exec` (always, once `fn` is non-nil) and the dispatch loop (at most
once, when it forwards a terminal value) — and `Exec` itself performs
exactly one receive (`return <-ww.err`).  The interleavings of these three
operations on a capacity-1 FIFO channel are embedded as a successor
function on explicit states; `log` is the history of completed sends in
order, a ghost field used only to state which value the receive obtained. -/

structure RaceState where
  /-- pending values in the capacity-1 buffer of `ww.err`. -/
  buf : List ErrorV
  /-- the workload goroutine's send has completed. -/
  execSent : Bool
  /-- the dispatch loop's send has completed. -/
  waitSent : Bool
  /-- `Exec`'s single receive: `some v` once it has consumed `v`. -/
  recvd : Option ErrorV
  /-- ghost: completed sends, in order. -/
  log : List ErrorV
deriving DecidableEq, Repr

def raceInit : RaceState := ⟨[], false, false, none, []⟩

/-- All states reachable in one step: the workload's send of `v1`, the
dispatch loop's send of `v2` (only present when `ww = true`, i.e. the
signal path terminates at all), and `Exec`'s receive.  A send on a
capacity-1 channel is enabled when the buffer is empty (a send into a
waiting receiver is observably the same as buffer-then-receive), a receive
when the buffer is non-empty and the single receive has not happened yet. -/
def raceSucc (v1 v2 : ErrorV) (ww : Bool) (s : RaceState) : List RaceState :=
  (if s.execSent = false ∧ s.buf = [] then
      [{ s with buf := s.buf ++ [v1], execSent := true, log := s.log ++ [v1] }]
    else []) ++
  (if ww = true ∧ s.waitSent = false ∧ s.buf = [] then
      [{ s with buf := s.buf ++ [v2], waitSent := true, log := s.log ++ [v2] }]
    else []) ++
  (match s.recvd, s.buf with
   | none, v :: rest => [{ s with recvd := some v, buf := rest }]
   | _, _ => [])

/-- States reachable from the initial state of the race. -/
inductive RaceReach (v1 v2 : ErrorV) (ww : Bool) : RaceState → Prop where
  | init : RaceReach v1 v2 ww raceInit
  | step {s s' : RaceState} : RaceReach v1 v2 ww s → s' ∈ raceSucc v1 v2 ww s →
      RaceReach v1 v2 ww s'

/-- Inductive invariant of the race: the send history is the consumed value
followed by the buffered ones, its length counts the completed sends, the
buffer respects the channel capacity, and the dispatch loop only sends when
it participates. -/
def raceInv (ww : Bool) (s : RaceState) : Prop :=
  s.log = s.recvd.toList ++ s.buf ∧
  s.log.length = (cond s.execSent 1 0) + (cond s.waitSent 1 0) ∧
  s.buf.length ≤ 1 ∧
  (s.waitSent = true → ww = true)

/-! ## HTTP server configuration (http_server.go)

`net.Listen`, `net.FileListener`, `os.Stat` and the certificate/key
existence check are external collaborators; they enter the embedding as
function parameters.  A successfully opened listener is never nil, so a
listener is a record (its address, and — as a ghost input for the shutdown
model — the error its `Close()` would report). -/

structure GoListener where
  addr : String
  /-- ghost input: the error this listener's `Close()` reports during
  shutdown (`none` = closes cleanly). -/
  closeErr : ErrorV
deriving DecidableEq, Repr

/-- The builder value `c` of http_server.go (the fields the configuration
steps touch; the embedded `http.Server` and `cancelFn` are represented by
the behaviour models below). -/
structure Cfg where
  l : List GoListener
  /-- `c.h`: the shared handler; Go's `http.Handler` is opaque here, so an
  identifier, `none` when unconfigured. -/
  h : Option Nat
  cert : String
  key : String
  wTimeOut : Nat
  gWait : Nat
deriving DecidableEq, Repr

/-- The zero value `c{l: make([]net.Listener, 0)}` built by `HttpServer`. -/
def initCfg : Cfg := ⟨[], none, "", "", 0, 0⟩

/-- A `SetFn func(*c) error` value: a configuration step mutating the builder. -/
abbrev SetFn := Cfg → Except GoError Cfg

/-- Step `WriteWait`. -/
def WriteWait (d : Nat) : SetFn := fun c => Except.ok { c with wTimeOut := d }

/-- Step `GracefulWait`. -/
def GracefulWait (g : Nat) : SetFn := fun c => Except.ok { c with gWait := g }

/-- Step `Handler`. -/
def Handler (h : Nat) : SetFn := fun c => Except.ok { c with h := some h }

/-- Step `OnTCP`, with `net.Listen("tcp", ·)` supplied as `net`. -/
def OnTCP (net : String → Except GoError GoListener) (addr : String) : SetFn :=
  fun c =>
    let addr := if addr = "" then
        (if c.key.length + c.cert.length > 0 then ":https" else ":http")
      else addr
    match net addr with
    | Except.error e => Except.error e
    | Except.ok l => Except.ok { c with l := c.l ++ [l] }

/-- Step `OnSocket`, with `net.Listen("unix", ·)` supplied as `netUnix`. -/
def OnSocket (netUnix : String → Except GoError GoListener) (s : String) : SetFn :=
  fun c =>
    match netUnix s with
    | Except.error e => Except.error e
    | Except.ok l => Except.ok { c with l := c.l ++ [l] }

/-- Step `WithTLSCert`, with the `fileExists` check supplied as a predicate.
Both existence checks run when the option is constructed: a missing
certificate (checked first) or key yields a step that always fails with the
corresponding `fmt.Errorf` message; otherwise the step records the pair. -/
def WithTLSCert (fileExists : String → Bool) (cert key : String) : SetFn :=
  if fileExists cert = false then
    fun _ => Except.error (GoError.str ("invalid certificate file \"" ++ cert ++ "\""))
  else if fileExists key = false then
    fun _ => Except.error (GoError.str ("invalid key file \"" ++ key ++ "\""))
  else
    fun c => Except.ok { c with key := key, cert := cert }

/-- The error `OnSystemd` builds with `fmt.Errorf` for a missing/invalid
count and for a descriptor that is not a socket. -/
def notSystemdErr : GoError :=
  GoError.str "it appears that we're not expected to wait for a systemd socket connection"

/-- The loop body of the step returned by `OnSystemd`:
`for i := start; i < uintptr(nfds); i++` — note the source's upper bound is
`nfds` itself, not `start + nfds`.  The first argument is the number of
iterations still to run, `nfds - i` (zero exactly when the guard
`i < nfds` fails).  `fdStat i` models `os.NewFile(i, ...).Stat()` followed
by the `ModeSocket` test (`Except.error` = `Stat` failed, `ok b` =
mode-is-socket result); `fileListener i` models `net.FileListener`. -/
def sdLoop (fdStat : Nat → Except GoError Bool)
    (fileListener : Nat → Except GoError GoListener) :
    Nat → Nat → Except GoError (List GoListener)
  | 0, _ => Except.ok []
  | fuel + 1, i =>
    match fdStat i with
    | Except.error e => Except.error e
    | Except.ok false => Except.error notSystemdErr
    | Except.ok true =>
      match fileListener i with
      | Except.error e => Except.error e
      | Except.ok l =>
        match sdLoop fdStat fileListener fuel (i + 1) with
        | Except.error e => Except.error e
        | Except.ok ls => Except.ok (l :: ls)

/-- Step `OnSystemd`.  Here `listenFdsEnv` is the result of
`strconv.Atoi(os.Getenv("LISTEN_FDS"))` (`none` = parse error, e.g. the
variable is unset), `sdStartEnv` the result of parsing
`SD_LISTEN_FDS_START` (nonnegative values; default 3 per
`man 3 sd_listen_fds`). -/
def OnSystemd (listenFdsEnv : Option Int) (sdStartEnv : Option Nat)
    (fdStat : Nat → Except GoError Bool)
    (fileListener : Nat → Except GoError GoListener) : SetFn :=
  match listenFdsEnv with
  | none => fun _ => Except.error notSystemdErr
  | some nfds =>
    if nfds ≤ 0 then fun _ => Except.error notSystemdErr
    else
      let start : Nat := match sdStartEnv with
        | some v => v
        | none => 3
      fun c =>
        match sdLoop fdStat fileListener (nfds.toNat - start) start with
        | Except.error e => Except.error e
        | Except.ok ls => Except.ok { c with l := c.l ++ ls }

/-- Modelled from the spec: the passed-sockets convention
(`man 3 sd_listen_fds`) passes descriptors `s` through `s + n - 1`, so the
socket-activation step is expected to wrap exactly these indices. -/
def sdConventionFds (s n : Nat) : List Nat := List.range' s n

/-- Applies the configuration steps in order, short-circuiting at the first
failure, and also counts how many steps were invoked (the loop of
`HttpServer`). -/
def runSetters : List SetFn → Cfg → Except GoError Cfg × Nat
  | [], c => (Except.ok c, 0)
  | f :: fs, c =>
    match f c with
    | Except.error e => (Except.error e, 1)
    | Except.ok c' =>
      let r := runSetters fs c'
      (r.1, r.2 + 1)

/-- Result of `HttpServer`: either the pair `(errStartFn(err), emptyStopFn)`
for a failed build, or the pair `(c.start, c.stop)` closed over the built
configuration. -/
inductive Build where
  | failed : GoError → Build
  | built : Cfg → Build
deriving DecidableEq, Repr

/-- Builder `HttpServer`: runs the steps over the zero value, then rejects an empty
listener collection and a missing handler (the final steps of
http_server.go lines 230-254; the `http.Server` field assignments carry no
observable state for the claims). -/
def HttpServer (setters : List SetFn) : Build :=
  match (runSetters setters initCfg).1 with
  | Except.error e => Build.failed e
  | Except.ok c =>
    if c.l = [] then Build.failed (GoError.str "no listeners have been configured")
    else if c.h = none then Build.failed (GoError.str "no handler has been configured")
    else Build.built c

/-! ## `(*c).initServer` and `(*c).start` (http_server.go lines 158-206) -/

/-- The `errFn` closure inside `initServer`: nil stays nil, a serve error is
wrapped with the listener address. -/
def errFn (addr : String) (e : ErrorV) : ErrorV :=
  match e with
  | none => none
  | some err => some (GoError.wrap ("error on listener " ++ addr) err)

/-- Method `initServer`: one serve goroutine per listener (the source skips nil
entries, and a successfully built configuration contains none), each
eventually sending `errFn(Serve/ServeTLS result)` on `errChan`.
`serveResult i` is the terminal error of listener `i`'s serve call
(`Serve`/`ServeTLS` always return a non-nil error, per their contract). -/
def initServer (c : Cfg) (serveResult : Nat → GoError) : List ErrorV :=
  c.l.enum.map (fun p => errFn p.2.addr (some (serveResult p.1)))

/-- The wrapping `fmt.Errorf("received error from: %w", err)` of the receive loop
(`%w` applied to a nil error yields a non-wrapping formatted error). -/
def wrapRecv : ErrorV → GoError
  | some e => GoError.wrap "received error from" e
  | none => GoError.str "received error from: %!w(<nil>)"

/-- The receive loop of `start`: `for i := 0; i < len(cc.l); i++` receives
one terminal report per iteration, discarding those matching
`http.ErrServerClosed` and collecting the rest, wrapped.  `reports` is the
arrival order on `errChan`; the result is `none` when fewer reports than
listeners ever arrive (the loop would block), otherwise the collected
errors together with how many reports were consumed. -/
def startLoop : Nat → List ErrorV → Option (List GoError × Nat)
  | 0, _ => some ([], 0)
  | _ + 1, [] => none
  | n + 1, r :: rest =>
    (startLoop n rest).map fun p =>
      ((if errorsIsV r GoError.errServerClosed then p.1 else wrapRecv r :: p.1), p.2 + 1)

/-- Method `(*c).start`: receives one report per listener and returns
`errors.Join(errs...)`; `none` means start blocks forever. -/
def cStart (c : Cfg) (reports : List ErrorV) : Option ErrorV :=
  (startLoop c.l.length reports).map (fun p => errorsJoin p.1)

/-! ## `(*c).stop` (http_server.go lines 208-227) -/

/-- A Go `context.Context` as `stop` observes it: whether its
deadline/cancellation has fired, and the error `ctx.Err()` reports then. -/
structure Ctx where
  fired : Bool
  err : GoError
deriving DecidableEq, Repr

/-- Modelled from the documented contract of `net/http Server.Shutdown`:
it closes the server's listeners and waits for idle connections; it returns
the context's error if the context expires before shutdown completes,
otherwise the error from closing the underlying listeners — a single error
(the implementation keeps the first), not a join — otherwise nil. -/
def serverShutdown (ctx : Ctx) (closeErrs : List ErrorV) : ErrorV :=
  if ctx.fired then some ctx.err
  else (closeErrs.filterMap id).head?

/-- Method `(*c).stop`: after the optional grace wait (a `select` on the timer and
`ctx.Done()`, which produces no value), it returns `cc.s.Shutdown(ctx)`'s
error verbatim (`if err != nil return err; return nil`); nothing in the
body closes a listener itself or joins errors. -/
def cStop (c : Cfg) (ctx : Ctx) : ErrorV :=
  match serverShutdown ctx (c.l.map GoListener.closeErr) with
  | some e => some e
  | none => none

/-- Modelled from the spec: stop closes every listener individually
collecting each close failure, performs the bounded graceful shutdown,
folds in ctx's error if its deadline/cancellation fired, and joins all
collected errors (a clean shutdown reporting nil). -/
def stopSpec (c : Cfg) (ctx : Ctx) : ErrorV :=
  let closeFailures := c.l.filterMap GoListener.closeErr
  let ctxErrs := if ctx.fired then [ctx.err] else []
  errorsJoin (closeFailures ++ ctxErrs)

/-! ## The start/stop functions yielded by `HttpServer` -/

/-- Serve tasks spawned when the start function runs: `errStartFn` spawns
none, `c.start` spawns one per listener via `initServer`. -/
def startTasksSpawned : Build → Nat
  | Build.failed _ => 0
  | Build.built c => c.l.length

/-- The start function's returned error: for a failed build,
`errStartFn(err)` returns `err` at once regardless of anything else; for a
built configuration, the `cStart` receive loop (outer `none` = blocks). -/
def buildStartErr (b : Build) (reports : List ErrorV) : Option ErrorV :=
  match b with
  | Build.failed e => some (some e)
  | Build.built c => cStart c reports

/-- The stop function's returned error: `emptyStopFn` returns nil for a
failed build, otherwise `cStop`. -/
def buildStopErr (b : Build) (ctx : Ctx) : ErrorV :=
  match b with
  | Build.failed _ => none
  | Build.built c => cStop c ctx

lemma raceInv_init (ww : Bool) : raceInv ww raceInit := by
  simp [raceInv, raceInit]

lemma raceInv_step (v1 v2 : ErrorV) (ww : Bool) {s s' : RaceState}
    (h : raceInv ww s) (hs : s' ∈ raceSucc v1 v2 ww s) : raceInv ww s' := by
  obtain ⟨hlog, hlen, hcap, hws⟩ := h
  rcases List.mem_append.mp hs with hs | hs
  · rcases List.mem_append.mp hs with hs | hs
    · by_cases hc : s.execSent = false ∧ s.buf = []
      · rw [if_pos hc, List.mem_singleton] at hs
        subst hs
        refine ⟨?_, ?_, ?_, ?_⟩
        · simp only [hlog]; simp [List.append_assoc]
        · simp [hlen, hc.1, Nat.add_comm]
        · simp [hc.2]
        · simpa using hws
      · simp [hc] at hs
    · by_cases hc : ww = true ∧ s.waitSent = false ∧ s.buf = []
      · rw [if_pos hc, List.mem_singleton] at hs
        subst hs
        refine ⟨?_, ?_, ?_, ?_⟩
        · simp only [hlog]; simp [List.append_assoc]
        · simp [hlen, hc.2.1]
        · simp [hc.2.2]
        · intro _; exact hc.1
      · simp [hc] at hs
  · rcases hr : s.recvd with _ | rv
    · rcases hb : s.buf with _ | ⟨v, rest⟩
      · simp [hr, hb] at hs
      · simp only [hr, hb, List.mem_singleton] at hs
        subst hs
        refine ⟨?_, ?_, ?_, ?_⟩
        · simpa [hr, hb] using hlog
        · simpa using hlen
        · simp only [hb, List.length_cons] at hcap
          show rest.length ≤ 1
          omega
        · simpa using hws
    · simp [hr] at hs

lemma raceInv_reach (v1 v2 : ErrorV) (ww : Bool) {s : RaceState}
    (h : RaceReach v1 v2 ww s) : raceInv ww s := by
  induction h with
  | init => exact raceInv_init ww
  | step _ hs ih => exact raceInv_step v1 v2 ww ih hs

/-- In a state with no successor, every enabling condition fails: a writer
that has not sent is blocked only by a non-empty buffer, and the receive is
blocked only because it already happened or the buffer is empty. -/
lemma race_max_facts (v1 v2 : ErrorV) (ww : Bool) (s : RaceState)
    (hmax : raceSucc v1 v2 ww s = []) :
    (s.execSent = true ∨ s.buf ≠ []) ∧
    (ww = true → (s.waitSent = true ∨ s.buf ≠ [])) ∧
    (s.recvd.isSome = true ∨ s.buf = []) := by
  unfold raceSucc at hmax
  rcases List.append_eq_nil.mp hmax with ⟨h12, h3⟩
  rcases List.append_eq_nil.mp h12 with ⟨h1, h2⟩
  refine ⟨?_, ?_, ?_⟩
  · by_cases hc : s.execSent = false ∧ s.buf = []
    · rw [if_pos hc] at h1; simp at h1
    · by_cases he : s.execSent = false
      · right; intro hb; exact hc ⟨he, hb⟩
      · left; simpa using he
  · intro hww
    by_cases hc : ww = true ∧ s.waitSent = false ∧ s.buf = []
    · rw [if_pos hc] at h2; simp at h2
    · by_cases hwsnt : s.waitSent = false
      · right; intro hb; exact hc ⟨hww, hwsnt, hb⟩
      · left; simpa using hwsnt
  · rcases hr : s.recvd with _ | rv
    · rcases hb : s.buf with _ | ⟨v, rest⟩
      · exact Or.inr rfl
      · rw [hr, hb] at h3; simp at h3
    · left; simp [hr]

/-- When the receive loop of `start` is given exactly as many reports as it
expects, it consumes all of them and collects exactly the non-benign ones,
wrapped, in arrival order. -/
lemma startLoop_complete (rs : List ErrorV) :
    startLoop rs.length rs =
      some ((rs.filter (fun r => !errorsIsV r GoError.errServerClosed)).map wrapRecv,
        rs.length) := by
  induction rs with
  | nil => rfl
  | cons r rest ih =>
    by_cases h : errorsIsV r GoError.errServerClosed = true
    · simp [startLoop, ih, List.filter_cons, h]
    · simp only [Bool.not_eq_true] at h
      simp [startLoop, ih, List.filter_cons, h]

/-- Prefixing a run of setters with steps that all succeed shifts the
result and the invocation count. -/
lemma runSetters_append_ok (pre fs : List SetFn) (c c1 : Cfg)
    (hpre : runSetters pre c = (Except.ok c1, pre.length)) :
    runSetters (pre ++ fs) c =
      ((runSetters fs c1).1, (runSetters fs c1).2 + pre.length) := by
  induction pre generalizing c with
  | nil =>
    simp only [runSetters, Prod.mk.injEq, List.length_nil] at hpre
    obtain ⟨h1, _⟩ := hpre
    obtain rfl : c = c1 := by
      cases h1; rfl
    simp
  | cons f pre ih =>
    rcases hf : f c with e | c'
    · rw [List.cons_append] at *
      simp only [runSetters, hf, Prod.mk.injEq, List.length_cons] at hpre
      cases hpre.1
    · rw [List.cons_append]
      simp only [runSetters, hf, Prod.mk.injEq, List.length_cons] at hpre ⊢
      have hpre' : runSetters pre c' = (Except.ok c1, pre.length) := by
        obtain ⟨h1, h2⟩ := hpre
        exact Prod.ext h1 (by omega)
      rw [ih c' hpre']
      exact ⟨rfl, by omega⟩

/-- A run whose first step fails invokes only that step. -/
lemma runSetters_first_fails (bad : SetFn) (fs : List SetFn) (c : Cfg)
    (e : GoError) (hbad : bad c = Except.error e) :
    runSetters (bad :: fs) c = (Except.error e, 1) := by
  simp [runSetters, hbad]

/-- Builder `HttpServer` on a setter list whose run fails. -/
lemma HttpServer_of_run_error (setters : List SetFn) (e : GoError)
    (h : (runSetters setters initCfg).1 = Except.error e) :
    HttpServer setters = Build.failed e := by
  simp [HttpServer, h]

/-! ## Claims -/

/-- A concrete handler map in the style of the repository's example test. -/
def demoHandlers : SignalHandlers := [(SIGTERM, 0), (SIGINT, 1)]

/-- C1, counterexample.  The claim says a handler writing nil to its sink
makes Exec terminate and return nil, and a handler writing an error makes
Exec return that exact error.  On the code, a nil write is ignored — the
dispatch loop keeps running (`if err != nil`), so Exec does not terminate —
and a write of `syscall.EINTR` terminates Exec with nil, not with that
error.  (The repository's own `ExampleRegisterSignalHandlers` expects
execution to continue after the SIGTERM handler writes nil.) -/
theorem handler_nil_write_ignored_cex :
    (waitRun demoHandlers [Ev.fromErrCh none]).out = WaitOut.looping ∧
    (waitRun demoHandlers [Ev.fromErrCh none]).errChClosed = false ∧
    (waitRun demoHandlers [Ev.fromErrCh (some GoError.eintr)]).out = WaitOut.sent none ∧
    WaitOut.sent none ≠ WaitOut.sent (some GoError.eintr) := by
  decide

/-- C1, amended.  A handler write of nil to the sink is ignored: the
dispatch loop behaves as if the event had not happened and keeps running.
A write of a non-nil error terminates the dispatch: the loop forwards nil
to the completion channel if the error matches `Interrupt`
(`errors.Is`), and otherwise forwards exactly that error, dispatching no
further handlers and returning (which runs the deferred close of the
sink). -/
theorem handler_write_dispatch_behaviour (h : SignalHandlers) (e : GoError)
    (rest : List Ev) :
    waitRun h (Ev.fromErrCh none :: rest) = waitRun h rest ∧
    waitRun h (Ev.fromErrCh (some e) :: rest) =
      ⟨WaitOut.sent (if errorsIs e Interrupt then none else some e), [], true⟩ := by
  exact ⟨rfl, rfl⟩

/-- C9.  An error written by a handler that matches the `Interrupt`
sentinel (`errors.Is(err, Interrupt)`) is converted to nil by the dispatch
loop before being forwarded to the completion channel, so the value Exec
receives from this path is nil — never the original error. -/
theorem interrupt_error_converted_to_nil (h : SignalHandlers) (e : GoError)
    (rest : List Ev) (hi : errorsIs e Interrupt = true) :
    waitRun h (Ev.fromErrCh (some e) :: rest) = ⟨WaitOut.sent none, [], true⟩ ∧
    ∀ v, (waitRun h (Ev.fromErrCh (some e) :: rest)).out ≠ WaitOut.sent (some v) := by
  have h1 : waitRun h (Ev.fromErrCh (some e) :: rest) =
      ⟨WaitOut.sent none, [], true⟩ := by
    simp [waitRun, hi]
  refine ⟨h1, ?_⟩
  intro v
  rw [h1]
  simp

/-- C9, witness: an error wrapping `syscall.EINTR` (so that only the
`errors.Is` chain walk finds the sentinel) is forwarded as nil. -/
theorem interrupt_error_converted_to_nil_witness :
    waitRun demoHandlers
        [Ev.fromErrCh (some (GoError.wrap "op failed" GoError.eintr))] =
      ⟨WaitOut.sent none, [], true⟩ :=
  (interrupt_error_converted_to_nil demoHandlers
    (GoError.wrap "op failed" GoError.eintr) [] (by decide)).1

/-- C10.  The dispatch loop closes its per-handler sink channel when it
returns — after forwarding a terminal value, and on context cancellation —
so an execution exists in which a still-running handler goroutine writes to
the sink after Exec terminated and that write is a send on a closed
channel, which panics (while a write before closure is simply
delivered). -/
theorem late_handler_write_panics :
    (waitRun demoHandlers [Ev.fromErrCh (some (GoError.str "stop"))]).errChClosed = true ∧
    sendOnErrCh
        (waitRun demoHandlers [Ev.fromErrCh (some (GoError.str "stop"))]).errChClosed
        (some (GoError.str "late")) = SendOutcome.panicked ∧
    (waitRun demoHandlers [Ev.ctxDone]).errChClosed = true ∧
    sendOnErrCh (waitRun demoHandlers []).errChClosed (some (GoError.str "early")) =
      SendOutcome.delivered (some (GoError.str "early")) := by
  decide

/-- C4, counterexample.  The claim's parenthetical says a nil/empty handler
map subscribes to no signal; but `RegisterSignalHandlers` passes the empty
key list to `signal.Notify`, and `Notify` with no signal arguments relays
**all** incoming signals to the channel. -/
theorem empty_handler_map_subscribes_all_cex :
    signals ([] : SignalHandlers) = [] ∧
    notifyRelays (signals ([] : SignalHandlers)) SIGHUP = true ∧
    notifyRelays (signals ([] : SignalHandlers)) SIGTERM = true := by
  decide

/-- C4, amended.  For a handler map with at least one key,
`RegisterSignalHandlers` subscribes exactly the map's keys; the empty map
instead causes all signals to be relayed to the channel, per
`signal.Notify`'s contract.  In every case — the empty map included — the
arrival of a signal that is not a key of the map invokes no handler and
changes nothing about the dispatch loop's behaviour: the trace is the one
of the remaining events. -/
theorem register_subscribes_exactly_keys (hs : SignalHandlers) (s : Signal) :
    (hs ≠ [] → (notifyRelays (signals hs) s = true ↔ s ∈ signals hs)) ∧
    (hs = [] → notifyRelays (signals hs) s = true) ∧
    (lookupHandler hs s = none →
      ∀ evs, waitRun hs (Ev.fromSignal s :: evs) = waitRun hs evs) := by
  refine ⟨?_, ?_, ?_⟩
  · intro hne
    have hne' : signals hs ≠ [] := by
      simp only [signals, ne_eq, List.map_eq_nil_iff]
      exact hne
    unfold notifyRelays
    rw [Bool.or_eq_true]
    constructor
    · rintro (hempty | hcont)
      · exact absurd (List.isEmpty_iff.mp hempty) hne'
      · exact List.elem_iff.mp hcont
    · intro hmem
      exact Or.inr (List.elem_iff.mpr hmem)
  · intro hemp
    subst hemp
    rfl
  · intro hlk evs
    simp [waitRun, hlk]

/-- C4, witness: with a SIGHUP-only map, SIGTERM is not relayed, and its
delivery leaves the dispatch loop's trace unchanged; with the empty map
SIGTERM is relayed, yet its delivery still invokes nothing and leaves the
trace unchanged. -/
theorem register_subscribes_exactly_keys_witness :
    notifyRelays (signals [(SIGHUP, 0)]) SIGTERM = false ∧
    waitRun [(SIGHUP, 0)] [Ev.fromSignal SIGTERM] = waitRun [(SIGHUP, 0)] [] ∧
    notifyRelays (signals ([] : SignalHandlers)) SIGTERM = true ∧
    waitRun ([] : SignalHandlers) [Ev.fromSignal SIGTERM] =
      waitRun ([] : SignalHandlers) [] := by
  have h1 := register_subscribes_exactly_keys [(SIGHUP, 0)] SIGTERM
  have h2 := register_subscribes_exactly_keys ([] : SignalHandlers) SIGTERM
  refine ⟨?_, h1.2.2 (by decide) [], h2.2.1 rfl, h2.2.2 (by decide) []⟩
  by_contra hb
  have hb' : notifyRelays (signals [(SIGHUP, 0)]) SIGTERM = true := by
    revert hb
    cases notifyRelays (signals [(SIGHUP, 0)]) SIGTERM <;> simp
  exact absurd ((h1.1 (by decide)).mp hb') (by decide)

/-- C8.  In every maximal (no step possible) execution of the completion
channel protocol of Exec — the workload goroutine's single send, the
dispatch loop's at-most-one send, and Exec's single receive on the
capacity-1 channel `ww.err` — both senders have completed their writes (no
writer blocks forever), Exec consumed exactly one value, and that value is
the first one written. -/
theorem exec_completion_channel_race (v1 v2 : ErrorV) (ww : Bool)
    (s : RaceState) (hreach : RaceReach v1 v2 ww s)
    (hmax : raceSucc v1 v2 ww s = []) :
    s.execSent = true ∧ (ww = true → s.waitSent = true) ∧
    s.recvd = s.log.head? ∧ s.log ≠ [] ∧ s.recvd.toList.length ≤ 1 := by
  obtain ⟨hlog, hlen, hcap, hws⟩ := raceInv_reach v1 v2 ww hreach
  obtain ⟨f1, f2, f3⟩ := race_max_facts v1 v2 ww s hmax
  have hlen2 : s.log.length = s.recvd.toList.length + s.buf.length := by
    rw [hlog, List.length_append]
  have hE : s.execSent = true := by
    cases hEb : s.execSent with
    | true => rfl
    | false =>
      exfalso
      have hbne : s.buf ≠ [] := by
        rcases f1 with hcase | hcase
        · rw [hEb] at hcase; exact absurd hcase (by simp)
        · exact hcase
      have hb1 : 1 ≤ s.buf.length := List.length_pos.mpr hbne
      have hrnone : s.recvd = none := by
        cases hRb : s.recvd with
        | none => rfl
        | some v =>
          rw [hEb] at hlen
          rw [hRb] at hlen2
          simp only [Option.toList_some, List.length_singleton] at hlen2
          cases hWb : s.waitSent <;> rw [hWb] at hlen <;>
            simp only [cond_false, cond_true] at hlen <;> omega
      rcases f3 with hcase | hcase
      · rw [hrnone] at hcase; simp at hcase
      · exact hbne hcase
  have hW : ww = true → s.waitSent = true := by
    intro hww
    cases hWb : s.waitSent with
    | true => rfl
    | false =>
      exfalso
      have hbne : s.buf ≠ [] := by
        rcases f2 hww with hcase | hcase
        · rw [hWb] at hcase; exact absurd hcase (by simp)
        · exact hcase
      have hb1 : 1 ≤ s.buf.length := List.length_pos.mpr hbne
      have hrnone : s.recvd = none := by
        cases hRb : s.recvd with
        | none => rfl
        | some v =>
          rw [hE, hWb] at hlen
          rw [hRb] at hlen2
          simp at hlen hlen2
          omega
      rcases f3 with hcase | hcase
      · rw [hrnone] at hcase; simp at hcase
      · exact hbne hcase
  have hlogne : s.log ≠ [] := by
    intro hnil
    rw [hnil, hE] at hlen
    cases hWb : s.waitSent <;> rw [hWb] at hlen <;> simp at hlen
  have hRv : s.recvd = s.log.head? := by
    cases hRb : s.recvd with
    | none =>
      exfalso
      rcases f3 with hcase | hcase
      · rw [hRb] at hcase; simp at hcase
      · rw [hRb] at hlog
        simp only [Option.toList_none, List.nil_append] at hlog
        exact hlogne (by rw [hlog, hcase])
    | some v =>
      rw [hRb] at hlog
      simp only [Option.toList_some, List.singleton_append] at hlog
      rw [hlog]
      rfl
  exact ⟨hE, hW, hRv, hlogne, by cases s.recvd <;> simp⟩

/-- The terminal value the signal path forwards in the witness run. -/
def sigOutcome : ErrorV := some (GoError.str "signal outcome")

/-- Final state of a concrete schedule of the completion-channel race:
the workload sends nil first, Exec receives it, then the dispatch loop's
slightly later send completes into the buffer. -/
def raceFinalState : RaceState :=
  ⟨[sigOutcome], true, true, some none, [none, sigOutcome]⟩

/-- C8, witness: on that schedule the race theorem applies — the late
writer completed (it did not block forever) and Exec got the first-written
value. -/
theorem exec_completion_channel_race_witness :
    raceFinalState.execSent = true ∧ raceFinalState.waitSent = true ∧
    raceFinalState.recvd = raceFinalState.log.head? := by
  have h1 : RaceReach none sigOutcome true ⟨[none], true, false, none, [none]⟩ :=
    RaceReach.step RaceReach.init (by decide)
  have h2 : RaceReach none sigOutcome true ⟨[], true, false, some none, [none]⟩ :=
    RaceReach.step h1 (by decide)
  have h3 : RaceReach none sigOutcome true raceFinalState :=
    RaceReach.step h2 (by decide)
  have h := exec_completion_channel_race none sigOutcome true raceFinalState h3
    (by decide)
  exact ⟨h.1, h.2.1 rfl, h.2.2.1⟩

/-- C2.  For a built configuration, `start` spawns one serve task per
listener; when each task's terminal report arrives (in any order —
`reports` is any permutation of the per-listener reports), the receive
loop consumes exactly one report per listener (never returning after only
the first), and the result is the join of every non-benign report —
reports matching `http.ErrServerClosed` are excluded, and no non-benign
report is ever dropped. -/
theorem start_waits_for_all_listeners (c : Cfg) (serveResult : Nat → GoError)
    (reports : List ErrorV)
    (hperm : reports.Perm (initServer c serveResult)) :
    startLoop c.l.length reports =
      some ((reports.filter (fun r => !errorsIsV r GoError.errServerClosed)).map wrapRecv,
        c.l.length) ∧
    cStart c reports =
      some (errorsJoin
        ((reports.filter (fun r => !errorsIsV r GoError.errServerClosed)).map wrapRecv)) ∧
    (∀ r ∈ reports, errorsIsV r GoError.errServerClosed = false →
      wrapRecv r ∈
        (reports.filter (fun r => !errorsIsV r GoError.errServerClosed)).map wrapRecv) := by
  have hlen : reports.length = c.l.length := by
    rw [hperm.length_eq]
    simp [initServer]
  have h1 := startLoop_complete reports
  rw [hlen] at h1
  refine ⟨h1, ?_, ?_⟩
  · simp [cStart, h1]
  · intro r hr hnb
    exact List.mem_map.mpr ⟨r, List.mem_filter.mpr ⟨hr, by simp [hnb]⟩, rfl⟩

/-- A two-listener configuration for the start/stop witnesses. -/
def twoCfg : Cfg :=
  ⟨[⟨"127.0.0.1:8080", none⟩, ⟨"127.0.0.1:8443", none⟩], some 0, "", "", 0, 0⟩

/-- Serve outcomes: the first listener fails abnormally, the second shut
down cleanly (`http.ErrServerClosed`). -/
def twoServe : Nat → GoError := fun i =>
  if i = 0 then GoError.str "accept failed" else GoError.errServerClosed

/-- C2, witness: with two listeners whose reports arrive in reversed
order, start consumes both reports and keeps exactly the non-benign one. -/
theorem start_waits_for_all_listeners_witness :
    startLoop twoCfg.l.length ((initServer twoCfg twoServe).reverse) =
      some ([GoError.wrap "received error from"
          (GoError.wrap "error on listener 127.0.0.1:8080" (GoError.str "accept failed"))],
        2) := by
  have h := start_waits_for_all_listeners twoCfg twoServe
    ((initServer twoCfg twoServe).reverse)
    (List.reverse_perm (initServer twoCfg twoServe))
  rw [h.1]
  decide

/-- Two listeners whose `Close()` both fail, for the stop counterexample. -/
def stopCfg : Cfg :=
  ⟨[⟨"a", some (GoError.str "close a failed")⟩,
    ⟨"b", some (GoError.str "close b failed")⟩], some 0, "", "", 0, 0⟩

/-- A context that has not fired. -/
def calmCtx : Ctx := ⟨false, GoError.str "context canceled"⟩

/-- A context whose deadline fired. -/
def firedCtx : Ctx := ⟨true, GoError.str "context deadline exceeded"⟩

/-- C3, counterexample.  The claim says stop closes every listener
individually, collects each close failure, folds in the context error, and
joins all collected errors.  On the code, stop returns only
`Shutdown`'s single error: with two failing closes only the first surfaces
(the second is dropped, not joined), and when the context fired the
context error alone is returned, dropping the close failures — unlike the
spec-modelled aggregate. -/
theorem stop_close_failures_not_joined_cex :
    cStop stopCfg calmCtx = some (GoError.str "close a failed") ∧
    errorsIsV (cStop stopCfg calmCtx) (GoError.str "close b failed") = false ∧
    stopSpec stopCfg calmCtx =
      some (GoError.join (GoError.str "close a failed") (GoError.str "close b failed")) ∧
    cStop stopCfg calmCtx ≠ stopSpec stopCfg calmCtx ∧
    cStop stopCfg firedCtx = some (GoError.str "context deadline exceeded") ∧
    errorsIsV (cStop stopCfg firedCtx) (GoError.str "close a failed") = false := by
  decide

/-- C3, amended.  `stop` performs the optional grace wait and then returns
exactly the shared server's `Shutdown(ctx)` error: the context's error when
its deadline/cancellation fired, otherwise at most one listener-close
failure (the first), otherwise nil — a clean shutdown reports no error;
individual close failures are not collected or joined by stop itself. -/
theorem stop_returns_shutdown_error_only (c : Cfg) (ctx : Ctx) :
    cStop c ctx = serverShutdown ctx (c.l.map GoListener.closeErr) ∧
    (ctx.fired = true → cStop c ctx = some ctx.err) ∧
    (ctx.fired = false →
      cStop c ctx = (c.l.filterMap GoListener.closeErr).head?) ∧
    (ctx.fired = false → (∀ l ∈ c.l, l.closeErr = none) → cStop c ctx = none) := by
  have hbase : cStop c ctx = serverShutdown ctx (c.l.map GoListener.closeErr) := by
    unfold cStop
    cases serverShutdown ctx (c.l.map GoListener.closeErr) <;> rfl
  have hmap : (c.l.map GoListener.closeErr).filterMap id =
      c.l.filterMap GoListener.closeErr := by
    rw [List.filterMap_map]
    rfl
  refine ⟨hbase, ?_, ?_, ?_⟩
  · intro hf
    rw [hbase]
    simp [serverShutdown, hf]
  · intro hf
    rw [hbase]
    simp [serverShutdown, hf, hmap]
  · intro hf hclean
    rw [hbase]
    simp only [serverShutdown, hf, if_false, Bool.false_eq_true, hmap]
    rw [List.filterMap_eq_nil_iff.mpr hclean]
    rfl

/-- C3, witness for the amended claim: a clean shutdown (no close failure,
context not fired, a nonzero grace wait configured) returns nil. -/
theorem stop_returns_shutdown_error_only_witness :
    cStop ⟨[⟨"a", none⟩, ⟨"b", none⟩], some 0, "", "", 0, 5⟩ calmCtx = none := by
  exact (stop_returns_shutdown_error_only
    ⟨[⟨"a", none⟩, ⟨"b", none⟩], some 0, "", "", 0, 5⟩ calmCtx).2.2.2 rfl (by decide)

/-- C5.  Configuration steps run strictly in order and the first failing
step prevents every later step from running (the invocation count is the
failing step's position); the build yields a start function that always
returns that error while spawning no serve task, and a no-op stop
function — never a partially initialized listener collection.  Likewise a
run that succeeds but ends with zero listeners, or with no handler, yields
a permanently failing start (a configuration error) spawning no tasks. -/
theorem http_server_build_short_circuits (pre post : List SetFn) (bad : SetFn)
    (c1 : Cfg) (e : GoError)
    (hpre : runSetters pre initCfg = (Except.ok c1, pre.length))
    (hbad : bad c1 = Except.error e) :
    runSetters (pre ++ bad :: post) initCfg = (Except.error e, pre.length + 1) ∧
    HttpServer (pre ++ bad :: post) = Build.failed e ∧
    (∀ reports, buildStartErr (HttpServer (pre ++ bad :: post)) reports =
      some (some e)) ∧
    startTasksSpawned (HttpServer (pre ++ bad :: post)) = 0 ∧
    (∀ ctx, buildStopErr (HttpServer (pre ++ bad :: post)) ctx = none) ∧
    (∀ ss c' k, runSetters ss initCfg = (Except.ok c', k) → c'.l = [] →
      HttpServer ss = Build.failed (GoError.str "no listeners have been configured") ∧
      startTasksSpawned (HttpServer ss) = 0) ∧
    (∀ ss c' k, runSetters ss initCfg = (Except.ok c', k) → c'.l ≠ [] → c'.h = none →
      HttpServer ss = Build.failed (GoError.str "no handler has been configured") ∧
      startTasksSpawned (HttpServer ss) = 0) := by
  have hrun : runSetters (pre ++ bad :: post) initCfg =
      (Except.error e, pre.length + 1) := by
    rw [runSetters_append_ok pre (bad :: post) initCfg c1 hpre,
      runSetters_first_fails bad post c1 e hbad]
    exact Prod.ext rfl (by omega)
  have hbuild : HttpServer (pre ++ bad :: post) = Build.failed e :=
    HttpServer_of_run_error _ e (by rw [hrun])
  refine ⟨hrun, hbuild, ?_, ?_, ?_, ?_, ?_⟩
  · intro reports; rw [hbuild]; rfl
  · rw [hbuild]; rfl
  · intro ctx; rw [hbuild]; rfl
  · intro ss c' k hss hl
    have h1 : (runSetters ss initCfg).1 = Except.ok c' := by rw [hss]
    constructor
    · simp [HttpServer, h1, hl]
    · simp [HttpServer, h1, hl, startTasksSpawned]
  · intro ss c' k hss hl hh
    have h1 : (runSetters ss initCfg).1 = Except.ok c' := by rw [hss]
    constructor
    · simp [HttpServer, h1, hl, hh]
    · simp [HttpServer, h1, hl, hh, startTasksSpawned]

/-- C5, witness: a handler step succeeds, a TLS step with a missing
certificate fails, and a later write-timeout step never runs; the build is
the permanently failing pair. -/
theorem http_server_build_short_circuits_witness :
    runSetters [Handler 7, WithTLSCert (fun _ => false) "cert.pem" "key.pem",
      WriteWait 5] initCfg =
      (Except.error (GoError.str "invalid certificate file \"cert.pem\""), 2) ∧
    HttpServer [Handler 7, WithTLSCert (fun _ => false) "cert.pem" "key.pem",
      WriteWait 5] =
      Build.failed (GoError.str "invalid certificate file \"cert.pem\"") ∧
    startTasksSpawned (HttpServer [Handler 7,
      WithTLSCert (fun _ => false) "cert.pem" "key.pem", WriteWait 5]) = 0 := by
  have h := http_server_build_short_circuits [Handler 7] [WriteWait 5]
    (WithTLSCert (fun _ => false) "cert.pem" "key.pem")
    { initCfg with h := some 7 }
    (GoError.str "invalid certificate file \"cert.pem\"")
    (by rfl) (by rfl)
  exact ⟨h.1, h.2.1, h.2.2.2.1⟩

/-- C6.  `WithTLSCert` validates both paths with the existence predicate at
configuration time, certificate first: a missing certificate yields a step
failing with the error naming that file (whatever the key's state), a
missing key likewise, and only when both exist does the step record the
pair and succeed; moreover with a missing certificate the whole build
fails with that configuration error regardless of the remaining steps, so
no listener is ever served with a half-configured TLS pair. -/
theorem with_tls_cert_validates_files (fe : String → Bool) (cert key : String) :
    (fe cert = false → ∀ c, WithTLSCert fe cert key c =
      Except.error (GoError.str ("invalid certificate file \"" ++ cert ++ "\""))) ∧
    (fe cert = true → fe key = false → ∀ c, WithTLSCert fe cert key c =
      Except.error (GoError.str ("invalid key file \"" ++ key ++ "\""))) ∧
    (fe cert = true → fe key = true → ∀ c, WithTLSCert fe cert key c =
      Except.ok { c with key := key, cert := cert }) ∧
    (fe cert = false → ∀ rest, HttpServer (WithTLSCert fe cert key :: rest) =
      Build.failed (GoError.str ("invalid certificate file \"" ++ cert ++ "\""))) := by
  refine ⟨?_, ?_, ?_, ?_⟩
  · intro hc c
    simp [WithTLSCert, hc]
  · intro hc hk c
    simp [WithTLSCert, hc, hk]
  · intro hc hk c
    simp [WithTLSCert, hc, hk]
  · intro hc rest
    have hstep : WithTLSCert fe cert key initCfg =
        Except.error (GoError.str ("invalid certificate file \"" ++ cert ++ "\"")) := by
      simp [WithTLSCert, hc]
    apply HttpServer_of_run_error
    rw [runSetters_first_fails _ rest initCfg _ hstep]

/-- C6, witness: with only the certificate present the step fails naming
the key; with both present it records the pair onto the zero value. -/
theorem with_tls_cert_validates_files_witness :
    WithTLSCert (fun s => s == "cert.pem") "cert.pem" "key.pem" initCfg =
      Except.error (GoError.str "invalid key file \"key.pem\"") ∧
    WithTLSCert (fun _ => true) "cert.pem" "key.pem" initCfg =
      Except.ok { initCfg with key := "key.pem", cert := "cert.pem" } := by
  refine ⟨?_, ?_⟩
  · exact (with_tls_cert_validates_files (fun s => s == "cert.pem")
      "cert.pem" "key.pem").2.1 (by decide) (by decide) initCfg
  · exact (with_tls_cert_validates_files (fun _ => true)
      "cert.pem" "key.pem").2.2.1 rfl rfl initCfg

/-- Every passed descriptor is a socket. -/
def allSockets : Nat → Except GoError Bool := fun _ => Except.ok true

/-- Model where `net.FileListener` succeeds on every descriptor. -/
def mkFdListener : Nat → Except GoError GoListener :=
  fun _ => Except.ok ⟨"systemd fd", none⟩

/-- C7 (code bug).  With `LISTEN_FDS=1` and the default starting
descriptor 3 (the `sd_listen_fds` convention the source itself cites), all
descriptors being sockets, the step wraps **no** listener and succeeds — a
silent no-op — because the loop bound is `i < nfds` instead of
`i < start + nfds`; the convention expects descriptor 3 to be wrapped.
The absent/invalid-count branches do produce the configuration error the
claim describes, rather than a silent no-op. -/
theorem on_systemd_skips_passed_fds :
    OnSystemd (some 1) none allSockets mkFdListener initCfg = Except.ok initCfg ∧
    sdConventionFds 3 1 = [3] ∧
    OnSystemd none none allSockets mkFdListener initCfg =
      Except.error notSystemdErr ∧
    OnSystemd (some 0) none allSockets mkFdListener initCfg =
      Except.error notSystemdErr ∧
    OnSystemd (some (-2)) none allSockets mkFdListener initCfg =
      Except.error notSystemdErr := by
  exact ⟨rfl, rfl, rfl, rfl, rfl⟩

end Wrapper
